import Mathlib

/-!
# Verification of the hawk TUI video generator core

Shallow embedding of the hawk repository's core logic:

* `src/hawk/ollama_client.py` — prompt enhancement with length enforcement
  (`enhance_prompt`);
* `src/hawk/image_generator.py` — generation orchestrator
  (`_maybe_enhance_prompt`, `generate_image`);
* `src/hawk/config.py` — the fixed `PROJECTS` registry;
* `src/hawk/app.py` — the `ImageList` selection-state widget and the
  `HawkApp` session actions (`action_generate`, `action_delete_selected`,
  project selection).

Strings are embedded as `List Char`; Python string primitives (`strip`,
`rstrip`, `rfind`, slicing) are given faithful executable definitions below.
External effects (the HTTP enhancement call, the generation backend, the
storage listing, per-item deletion) are passed in as explicit parameters so
that each code path of the source is a total Lean function of those
outcomes.

The file is laid out definitions first, theorems second.
-/

set_option maxRecDepth 4000

namespace Hawk

/-! ## Python string primitives over `List Char` -/

/-- Python's `str.strip()` whitespace set (ASCII fragment): space, tab,
newline, carriage return, vertical tab, form feed. -/
def pyIsSpace (c : Char) : Bool :=
  c = ' ' || c = '\t' || c = '\n' || c = '\r' || c = '\x0b' || c = '\x0c'

/-- Python `s.lstrip()`. -/
def stripLeft (s : List Char) : List Char :=
  s.dropWhile pyIsSpace

/-- Python `s.rstrip()`. -/
def stripRight (s : List Char) : List Char :=
  (s.reverse.dropWhile pyIsSpace).reverse

/-- Python `s.strip()`. -/
def pyStrip (s : List Char) : List Char :=
  stripRight (stripLeft s)

/-- Python `s.rstrip(",")`: drop trailing commas. -/
def rstripComma (s : List Char) : List Char :=
  (s.reverse.dropWhile (· = ',')).reverse

/-- Python `s.rfind(c)`: the largest index at which `c` occurs, `-1` when
`c` does not occur. -/
def rfind (s : List Char) (c : Char) : Int :=
  match s with
  | [] => -1
  | a :: rest =>
    let r := rfind rest c
    if r ≥ 0 then r + 1
    else if a = c then 0 else -1

/-! ## `src/hawk/ollama_client.py` -/

/-- `MAX_PROMPT_CHARS = 250` (ollama_client.py line 19). -/
def MAX_PROMPT_CHARS : ℕ := 250

/-- `enhance_prompt` (ollama_client.py lines 46-106), as a function of the
outcome of the HTTP call: `none` models any exception along the way
(transport error, non-2xx status, JSON failure), `some content` models a
successful call whose extracted `message.content` field is `content`.

Source body:
```
enhanced = data.get("message", \x7b\x7d).get("content", "").strip()
if not enhanced: return prompt
if len(enhanced) > MAX_PROMPT_CHARS:
    truncated = enhanced[:MAX_PROMPT_CHARS]
    last_break = max(truncated.rfind(","), truncated.rfind(" "))
    if last_break > 150:
        enhanced = truncated[:last_break].rstrip(",").strip()
    else:
        enhanced = truncated.strip()
return enhanced
-- except Exception: return prompt
```
-/
def enhance_prompt (prompt : List Char) (response : Option (List Char)) : List Char :=
  match response with
  | none => prompt
  | some content =>
    let enhanced := pyStrip content
    if enhanced.isEmpty then prompt
    else if enhanced.length > MAX_PROMPT_CHARS then
      let truncated := enhanced.take MAX_PROMPT_CHARS
      let lastBreak := max (rfind truncated ',') (rfind truncated ' ')
      if lastBreak > 150 then pyStrip (rstripComma (truncated.take lastBreak.toNat))
      else pyStrip truncated
    else enhanced

/-! ## `src/hawk/image_generator.py` -/

/-- `_maybe_enhance_prompt` (image_generator.py lines 71-87).
`use_ollama` embeds the `USE_OLLAMA` configuration flag, `avail` the result
of `ollama_client.is_available()`, and `response` the enhancement service
outcome consumed by `enhance_prompt`. -/
def maybe_enhance_prompt (use_ollama avail : Bool) (prompt : List Char)
    (response : Option (List Char)) : List Char × Bool :=
  if !use_ollama then (prompt, false)
  else if !avail then (prompt, false)
  else
    let enhanced := enhance_prompt prompt response
    (enhanced, enhanced ≠ prompt)

/-- Metadata record assembled by `generate_image`
(image_generator.py lines 120-124 and 133-134, 155, 167). -/
structure GenMetadata where
  original_prompt : List Char
  enhanced : Bool
  backend : String
  final_prompt : Option (List Char)
  deriving DecidableEq, Repr

/-- `generate_image` (image_generator.py lines 90-174), as a function of
the backend outcome. `enhanceFlag` is the `enhance_prompt: bool = True`
parameter; `use_local` embeds `USE_LOCAL_IMAGE_GEN`; `backend` maps the
final prompt to either the produced paths or the raised exception's
message (the `except` clause logs and re-raises, so a backend error is
propagated unchanged). -/
def generate_image (use_ollama avail use_local : Bool) (prompt : List Char)
    (enhanceFlag : Bool) (response : Option (List Char))
    (backend : List Char → Except (List Char) (List (List Char))) :
    Except (List Char) (List (List Char) × GenMetadata) :=
  let backendName : String := if use_local then "local" else "replicate"
  let metadata0 : GenMetadata :=
    { original_prompt := prompt, enhanced := false,
      backend := backendName, final_prompt := none }
  let fpMeta :=
    if enhanceFlag && use_ollama then
      let em := maybe_enhance_prompt use_ollama avail prompt response
      (em.1, { metadata0 with enhanced := em.2, final_prompt := some em.1 })
    else (prompt, metadata0)
  match backend fpMeta.1 with
  | .ok paths => .ok (paths, fpMeta.2)
  | .error e => .error e

/-- The prompt that `generate_image` hands to its backend
(image_generator.py lines 127-132). -/
def finalPrompt (use_ollama avail : Bool) (prompt : List Char)
    (enhanceFlag : Bool) (response : Option (List Char)) : List Char :=
  if enhanceFlag && use_ollama then
    (maybe_enhance_prompt use_ollama avail prompt response).1
  else prompt

/-! ## `src/hawk/config.py` -/

/-- `Project` dataclass (config.py lines 40-47); the three storage
directories are derived from `slug` and carry no independent state. -/
structure Project where
  name : String
  slug : String
  model : String
  trigger : String
  description : String
  deriving DecidableEq, Repr

/-- The fixed `PROJECTS` registry (config.py lines 69-91), in insertion
order. -/
def PROJECTS : List (String × Project) :=
  [("wedding-vision",
    { name := "Wedding Vision", slug := "wedding-vision",
      model := "digital-prairie-labs/spring-wedding", trigger := "TOK",
      description := "Spring wedding florals and bouquets" }),
   ("latin-bible",
    { name := "Latin Bible", slug := "latin-bible",
      model := "digital-prairie-labs/catholic-prayers-v2.1", trigger := "",
      description := "Catholic prayers and religious imagery" }),
   ("dxp-labs",
    { name := "DXP Labs", slug := "dxp-labs",
      model := "digital-prairie-labs/futuristic", trigger := "TOK",
      description := "Futuristic sci-fi landscapes and spaceships" })]

/-- Python `PROJECTS[slug]` returns `some` project or (on `none`) raises
`KeyError`. -/
def lookupProject (slug : String) : Option Project :=
  (PROJECTS.find? (fun p => p.1 = slug)).map (·.2)

/-- `HawkApp.current_project` initial value (app.py line 279). -/
def defaultProjectSlug : String := "dxp-albs"

/-- Slug set by `action_select_project_1` (app.py line 348). -/
def selectProject1Slug : String := "wedding-vision"

/-- Slug set by `action_select_project_2` (app.py line 351). -/
def selectProject2Slug : String := "latin-bible"

/-- Slug set by `action_select_project_3` (app.py line 354). -/
def selectProject3Slug : String := "dxp-albs"

/-! ## `src/hawk/app.py` — `ImageList` widget state -/

/-- The state of the `ImageList` widget (app.py lines 40-99): the backing
item list `_images`, the selected index set `_selected`, and the reactive
`cursor`. Items are kept abstract in `α`. -/
structure ImageList (α : Type) where
  images : List α
  selected : Finset ℕ
  cursor : ℕ
  deriving DecidableEq

/-- `ImageList.__init__`: empty list, empty selection, cursor 0. -/
def ImageList.init (α : Type) : ImageList α :=
  { images := [], selected := ∅, cursor := 0 }

/-- `set_images` (app.py lines 50-55): replace items, clear selection,
reset cursor to 0. -/
def set_images (s : ImageList α) (images : List α) : ImageList α :=
  { s with images := images, selected := ∅, cursor := 0 }

/-- `toggle_current` (app.py lines 62-69). -/
def toggle_current (s : ImageList α) : ImageList α :=
  if ¬s.images.isEmpty ∧ s.cursor < s.images.length then
    if s.cursor ∈ s.selected then { s with selected := s.selected.erase s.cursor }
    else { s with selected := insert s.cursor s.selected }
  else s

/-- `select_all` (app.py lines 71-74). -/
def select_all (s : ImageList α) : ImageList α :=
  { s with selected := Finset.range s.images.length }

/-- `clear_selection` (app.py lines 76-79). -/
def clear_selection (s : ImageList α) : ImageList α :=
  { s with selected := ∅ }

/-- `move_up` (app.py lines 81-85): decrement the cursor when the list is
nonempty and the cursor is positive. -/
def move_up (s : ImageList α) : ImageList α :=
  if ¬s.images.isEmpty ∧ 0 < s.cursor then { s with cursor := s.cursor - 1 } else s

/-- `move_down` (app.py lines 87-91): increment the cursor when the list is
nonempty and the cursor is below `len - 1`. -/
def move_down (s : ImageList α) : ImageList α :=
  if ¬s.images.isEmpty ∧ s.cursor < s.images.length - 1 then
    { s with cursor := s.cursor + 1 }
  else s

/-- One cursor-movement keystroke. -/
inductive MoveOp where
  | up : MoveOp
  | down : MoveOp
  deriving DecidableEq, Repr

def applyMove (s : ImageList α) : MoveOp → ImageList α
  | .up => move_up s
  | .down => move_down s

/-- A finite sequence of `move_up` / `move_down` calls. -/
def applyMoves (s : ImageList α) (ops : List MoveOp) : ImageList α :=
  ops.foldl applyMove s

/-- The cursor invariant of the selection list: 0 on an empty list,
in `[0, len)` otherwise. -/
def listInvariant (s : ImageList α) : Prop :=
  (s.images.isEmpty → s.cursor = 0) ∧ (¬s.images.isEmpty → s.cursor < s.images.length)

instance (s : ImageList α) : Decidable (listInvariant s) := by
  unfold listInvariant; infer_instance

/-! ## `src/hawk/app.py` — `HawkApp` session state and actions

The session owns the `ImageList`, the status bar (message text plus the
`is_working` flag) and the prompt input field.  External effects — the
result of `replicate_client.generate_image`, the storage listing read by
`refresh_images`, and the per-item outcome of `replicate_client.delete_image`
(the `replicate_client` module is not part of the sources; its behavior at
these call sites is modelled from the spec as an explicit outcome
parameter) — are passed in as arguments. -/

structure AppState where
  imageList : ImageList (List Char)
  status : List Char
  working : Bool
  promptInput : List Char
  deriving DecidableEq

/-- `set_status` (app.py lines 340-344). -/
def setStatus (st : AppState) (msg : List Char) (working : Bool) : AppState :=
  { st with status := msg, working := working }

/-- Status text `f"Deleted \x7bcount\x7d images"` (app.py line 403). -/
def statusDeleted (n : ℕ) : List Char :=
  "Deleted ".toList ++ (toString n).toList ++ " images".toList

/-- Status text `"No images selected (Tab to select)"` (app.py line 395). -/
def statusNoSelection : List Char :=
  "No images selected (Tab to select)".toList

/-- Status text `f"Generated \x7blen(paths)\x7d image(s)"` (app.py line 420). -/
def statusGenerated (n : ℕ) : List Char :=
  "Generated ".toList ++ (toString n).toList ++ " image(s)".toList

/-- Status text `f"Error: \x7bstr(e)[:50]\x7d"` (app.py lines 423 and 442). -/
def statusError (e : List Char) : List Char :=
  "Error: ".toList ++ e.take 50

/-- Status text `"Enter a prompt first"` (app.py line 412). -/
def statusEnterPrompt : List Char :=
  "Enter a prompt first".toList

/-- Python `sorted(selected, reverse=True)` for a set of indices. -/
def sortedDescending (sel : Finset ℕ) : List ℕ :=
  (sel.sort (· ≤ ·)).reverse

/-- The indices at which `action_delete_selected` attempts a deletion
(app.py lines 398-399): the selected indices in descending order, skipping
any index out of range for the item snapshot. -/
def deletionAttempts (sel : Finset ℕ) (images : List α) : List ℕ :=
  (sortedDescending sel).filter (fun i => i < images.length)

/-- The number of successful deletions counted by `action_delete_selected`
(app.py lines 397-401); `delOk` models `replicate_client.delete_image`'s
per-item success. -/
def deleteCount (sel : Finset ℕ) (images : List α) (delOk : α → Bool) : ℕ :=
  ((deletionAttempts sel images).filterMap (fun i => images[i]?)).countP delOk

/-- `action_delete_selected` (app.py lines 390-403) followed by the
`refresh_images` it triggers (app.py lines 328-332).  `newListing` models
the storage listing `replicate_client.get_project_images` returns during
that refresh. -/
def action_delete_selected (st : AppState) (delOk : List Char → Bool)
    (newListing : List (List Char)) : AppState :=
  if st.imageList.selected = ∅ then setStatus st statusNoSelection false
  else
    let count := deleteCount st.imageList.selected st.imageList.images delOk
    setStatus { st with imageList := set_images st.imageList newListing }
      (statusDeleted count) false

/-- `action_generate` (app.py lines 405-423), as a function of the backend
call outcome `genResult` (the `try` body's `replicate_client.generate_image`)
and of the storage listing `newListing` read by the `refresh_images` on
success.  The returned `Bool` records whether the backend call was reached:
the empty-prompt guard returns before it. -/
def action_generate (st : AppState)
    (genResult : Except (List Char) (List (List Char)))
    (newListing : List (List Char)) : AppState × Bool :=
  let prompt := pyStrip st.promptInput
  if prompt.isEmpty then (setStatus st statusEnterPrompt false, false)
  else
    match genResult with
    | .ok paths =>
      (setStatus
        { st with imageList := set_images st.imageList newListing, promptInput := [] }
        (statusGenerated paths.length) false, true)
    | .error e => (setStatus st (statusError e) false, true)

/-! ## Helper lemmas: string primitives -/

theorem length_stripRight_le (s : List Char) : (stripRight s).length ≤ s.length := by
  simpa [stripRight] using (List.dropWhile_sublist (l := s.reverse) pyIsSpace).length_le

theorem length_pyStrip_le (s : List Char) : (pyStrip s).length ≤ s.length :=
  le_trans (length_stripRight_le _)
    (by simpa [stripLeft] using (List.dropWhile_sublist (l := s) pyIsSpace).length_le)

theorem length_rstripComma_le (s : List Char) : (rstripComma s).length ≤ s.length := by
  simpa [rstripComma] using (List.dropWhile_sublist (l := s.reverse) (· = ',')).length_le

/-- `rfind` never reaches the length of the list. -/
theorem rfind_lt_length (s : List Char) (c : Char) : rfind s c < (s.length : Int) := by
  induction s with
  | nil => simp [rfind]
  | cons a rest ih =>
    simp only [rfind, List.length_cons]
    split
    · push_cast; omega
    · split <;> push_cast <;> omega

/-- Any occurrence of `c` bounds `rfind` from below. -/
theorem le_rfind_of_getElem? (s : List Char) (c : Char) (i : ℕ)
    (h : s[i]? = some c) : (i : Int) ≤ rfind s c := by
  induction s generalizing i with
  | nil => simp at h
  | cons a rest ih =>
    cases i with
    | zero =>
      simp only [List.getElem?_cons_zero, Option.some.injEq] at h
      subst h
      simp only [rfind]
      split
      · omega
      · simp
    | succ n =>
      simp only [List.getElem?_cons_succ] at h
      have hr := ih n h
      have hge : rfind rest c ≥ 0 := le_trans (by positivity) hr
      simp only [rfind, if_pos hge]
      push_cast
      omega

/-- A nonnegative `rfind` result is an index where `c` occurs. -/
theorem getElem?_rfind (s : List Char) (c : Char) (h : 0 ≤ rfind s c) :
    s[(rfind s c).toNat]? = some c := by
  induction s with
  | nil => simp [rfind] at h
  | cons a rest ih =>
    simp only [rfind] at h ⊢
    by_cases hr : rfind rest c ≥ 0
    · have := ih hr
      rw [if_pos hr]
      have h1 : (rfind rest c + 1).toNat = (rfind rest c).toNat + 1 := by omega
      rw [h1, List.getElem?_cons_succ]
      exact this
    · rw [if_neg hr] at h ⊢
      by_cases ha : a = c
      · simp [ha]
      · rw [if_neg ha] at h
        omega

/-! ## Helper lemmas: `enhance_prompt` -/

/-- When the stripped response is nonempty, every branch of the truncation
logic returns at most `MAX_PROMPT_CHARS` characters. -/
theorem enhance_prompt_length_le (prompt content : List Char)
    (h : ¬ (pyStrip content).isEmpty) :
    (enhance_prompt prompt (some content)).length ≤ MAX_PROMPT_CHARS := by
  simp only [enhance_prompt, if_neg h]
  split
  · split
    · refine le_trans (length_pyStrip_le _) (le_trans (length_rstripComma_le _) ?_)
      simp only [List.length_take]
      omega
    · exact le_trans (length_pyStrip_le _) (List.length_take_le _ _)
  · omega

/-- When the truncation path fires and a break character exists strictly
after index 150 of the truncated text, the result is the prefix of the
stripped response ending at the last comma-or-space break, with trailing
commas and whitespace stripped. -/
theorem enhance_prompt_cut_at_break (prompt content : List Char)
    (hne : ¬ (pyStrip content).isEmpty)
    (hlong : (pyStrip content).length > MAX_PROMPT_CHARS)
    (i : ℕ) (hi : 150 < i)
    (hbrk : ((pyStrip content).take MAX_PROMPT_CHARS)[i]? = some ',' ∨
            ((pyStrip content).take MAX_PROMPT_CHARS)[i]? = some ' ') :
    ∃ b : ℕ, 150 < b ∧ b < MAX_PROMPT_CHARS ∧
      (((pyStrip content).take MAX_PROMPT_CHARS)[b]? = some ',' ∨
       ((pyStrip content).take MAX_PROMPT_CHARS)[b]? = some ' ') ∧
      (∀ j, b < j → ((pyStrip content).take MAX_PROMPT_CHARS)[j]? ≠ some ',' ∧
        ((pyStrip content).take MAX_PROMPT_CHARS)[j]? ≠ some ' ') ∧
      enhance_prompt prompt (some content) =
        pyStrip (rstripComma (((pyStrip content).take MAX_PROMPT_CHARS).take b)) := by
  set truncated := (pyStrip content).take MAX_PROMPT_CHARS with htr
  have htlen : truncated.length = MAX_PROMPT_CHARS := by
    rw [htr, List.length_take]
    omega
  have hlb : (150 : Int) < max (rfind truncated ',') (rfind truncated ' ') := by
    rcases hbrk with hc | hs
    · have := le_rfind_of_getElem? truncated ',' i hc
      have : (150 : Int) < rfind truncated ',' := by
        exact_mod_cast lt_of_lt_of_le (by exact_mod_cast hi) this
      exact lt_of_lt_of_le this (le_max_left _ _)
    · have := le_rfind_of_getElem? truncated ' ' i hs
      have : (150 : Int) < rfind truncated ' ' := by
        exact_mod_cast lt_of_lt_of_le (by exact_mod_cast hi) this
      exact lt_of_lt_of_le this (le_max_right _ _)
  set lb := max (rfind truncated ',') (rfind truncated ' ') with hlbdef
  have hlb0 : 0 ≤ lb := le_trans (by norm_num) (le_of_lt hlb)
  have hlblt : lb < (truncated.length : Int) := by
    rw [hlbdef]
    exact max_lt (rfind_lt_length _ _) (rfind_lt_length _ _)
  refine ⟨lb.toNat, by omega, by omega, ?_, ?_, ?_⟩
  · rcases max_cases (rfind truncated ',') (rfind truncated ' ') with ⟨heq, _⟩ | ⟨heq, _⟩
    · left
      have hlb' : lb = rfind truncated ',' := hlbdef.trans heq
      have h0 : 0 ≤ rfind truncated ',' := hlb' ▸ hlb0
      rw [hlb']
      exact getElem?_rfind truncated ',' h0
    · right
      have hlb' : lb = rfind truncated ' ' := hlbdef.trans heq
      have h0 : 0 ≤ rfind truncated ' ' := hlb' ▸ hlb0
      rw [hlb']
      exact getElem?_rfind truncated ' ' h0
  · intro j hj
    constructor
    · intro hc
      have hle := le_rfind_of_getElem? truncated ',' j hc
      have h2 : rfind truncated ',' ≤ lb := hlbdef ▸ le_max_left _ _
      omega
    · intro hs
      have hle := le_rfind_of_getElem? truncated ' ' j hs
      have h2 : rfind truncated ' ' ≤ lb := hlbdef ▸ le_max_right _ _
      omega
  · simp only [enhance_prompt, if_neg hne]
    rw [if_pos (by omega : (pyStrip content).length > MAX_PROMPT_CHARS)]
    rw [← htr, ← hlbdef, if_pos hlb]

/-- Service failure (`none`) and empty payload both fall back to the
original prompt. -/
theorem enhance_prompt_fallback (prompt : List Char) (response : Option (List Char))
    (h : response = none ∨ ∃ c, response = some c ∧ (pyStrip c).isEmpty) :
    enhance_prompt prompt response = prompt := by
  rcases h with h | ⟨c, hc, hemp⟩
  · rw [h]; rfl
  · rw [hc]
    simp [enhance_prompt, hemp]

/-! ## Helper lemmas: orchestrator -/

theorem generate_image_eq_match (use_ollama avail use_local : Bool)
    (prompt : List Char) (enhanceFlag : Bool) (response : Option (List Char))
    (backend : List Char → Except (List Char) (List (List Char))) :
    generate_image use_ollama avail use_local prompt enhanceFlag response backend =
      match backend (finalPrompt use_ollama avail prompt enhanceFlag response) with
      | .ok paths => .ok (paths,
          (if enhanceFlag && use_ollama then
            let em := maybe_enhance_prompt use_ollama avail prompt response
            { original_prompt := prompt, enhanced := em.2,
              backend := if use_local then "local" else "replicate",
              final_prompt := some em.1 }
          else
            { original_prompt := prompt, enhanced := false,
              backend := if use_local then "local" else "replicate",
              final_prompt := none }))
      | .error e => .error e := by
  by_cases h : enhanceFlag && use_ollama <;>
    simp only [generate_image, finalPrompt, h, if_true, Bool.false_eq_true, if_false]

/-! ## Helper lemmas: `ImageList` state machine -/

theorem listInvariant_set_images (s : ImageList α) (l : List α) :
    listInvariant (set_images s l) := by
  constructor <;> intro h <;> simp_all [set_images, List.isEmpty_iff]
  exact List.length_pos_of_ne_nil h

theorem listInvariant_move_up (s : ImageList α) (h : listInvariant s) :
    listInvariant (move_up s) := by
  obtain ⟨h0, h1⟩ := h
  unfold move_up
  split
  · next hc =>
    exact ⟨fun he => absurd he hc.1, fun hne => lt_of_le_of_lt (Nat.sub_le _ _) (h1 hne)⟩
  · exact ⟨h0, h1⟩

theorem listInvariant_move_down (s : ImageList α) (h : listInvariant s) :
    listInvariant (move_down s) := by
  obtain ⟨h0, h1⟩ := h
  unfold move_down
  split
  · next hc =>
    refine ⟨fun he => absurd he hc.1, fun hne => ?_⟩
    have h2 := hc.2
    show s.cursor + 1 < s.images.length
    omega
  · exact ⟨h0, h1⟩

theorem applyMove_images (s : ImageList α) (op : MoveOp) :
    (applyMove s op).images = s.images := by
  cases op <;> simp [applyMove, move_up, move_down] <;> split <;> rfl

theorem listInvariant_applyMove (s : ImageList α) (op : MoveOp) (h : listInvariant s) :
    listInvariant (applyMove s op) := by
  cases op
  · exact listInvariant_move_up s h
  · exact listInvariant_move_down s h

theorem applyMoves_images (s : ImageList α) (ops : List MoveOp) :
    (applyMoves s ops).images = s.images := by
  induction ops generalizing s with
  | nil => rfl
  | cons op rest ih =>
    simpa [applyMoves, List.foldl_cons, applyMove_images]
      using (ih (applyMove s op)).trans (applyMove_images s op)

theorem listInvariant_applyMoves (s : ImageList α) (ops : List MoveOp)
    (h : listInvariant s) : listInvariant (applyMoves s ops) := by
  induction ops generalizing s with
  | nil => exact h
  | cons op rest ih => exact ih (applyMove s op) (listInvariant_applyMove s op h)

/-! ## Helper lemmas: deletion order -/

theorem deletionAttempts_sorted (sel : Finset ℕ) (images : List α) :
    (deletionAttempts sel images).Sorted (· > ·) := by
  have h2 : (sortedDescending sel).Sorted (· > ·) := by
    unfold sortedDescending
    rw [List.Sorted, List.pairwise_reverse]
    exact Finset.sort_sorted_lt sel
  exact h2.filter _

theorem mem_deletionAttempts (sel : Finset ℕ) (images : List α) (i : ℕ) :
    i ∈ deletionAttempts sel images ↔ i ∈ sel ∧ i < images.length := by
  simp [deletionAttempts, sortedDescending, List.mem_filter, Finset.mem_sort]

/-! ## Claims -/

/-- C1: the spec requires that every slug the session can make active (the
startup default and the three project-selection slugs) resolves in the
fixed `PROJECTS` registry.  Evaluating the code refutes this: the startup
default slug `"dxp-albs"` — which is also the slug set by
`action_select_project_3` — is absent from the registry (whose third key is
`"dxp-labs"`), so `PROJECTS["dxp-albs"]` raises `KeyError` during the
startup refresh, while the slugs of actions 1 and 2 do resolve. -/
theorem claim_C1_dxp_albs_lookup_fails :
    lookupProject defaultProjectSlug = none ∧
    lookupProject selectProject3Slug = none ∧
    (lookupProject selectProject1Slug).isSome = true ∧
    (lookupProject selectProject2Slug).isSome = true := by
  decide

/-- C5: for every item list and every finite sequence of
`move_up`/`move_down` calls on a freshly populated selection list, the item
list is unchanged and the cursor stays within `[0, N-1]` when `N > 0`, and
at 0 when `N = 0`.  The embedded operations are total functions of the
state, mirroring the fact that the Python methods only compare and assign —
no call can raise. -/
theorem claim_C5_cursor_bounds {α : Type} (prior : ImageList α)
    (items : List α) (ops : List MoveOp) :
    (applyMoves (set_images prior items) ops).images = items ∧
    (items.length = 0 → (applyMoves (set_images prior items) ops).cursor = 0) ∧
    (0 < items.length →
      (applyMoves (set_images prior items) ops).cursor < items.length) := by
  have himg : (applyMoves (set_images prior items) ops).images = items :=
    applyMoves_images (set_images prior items) ops
  obtain ⟨h0, h1⟩ :=
    listInvariant_applyMoves (set_images prior items) ops
      (listInvariant_set_images prior items)
  refine ⟨himg, fun hz => ?_, fun hp => ?_⟩
  · refine h0 ?_
    rw [himg, List.isEmpty_iff, ← List.length_eq_zero]
    exact hz
  · have := h1 (by rw [himg]; simp only [List.isEmpty_iff]; exact List.ne_nil_of_length_pos hp)
    rwa [himg] at this

/-- C6: replacing the items via `set_images` resets the cursor to 0 and
empties the selection from every prior state, including states whose old
cursor and selection would remain in range for the new, possibly shorter,
item sequence. -/
theorem claim_C6_set_images_resets {α : Type} (s : ImageList α) (new : List α) :
    (set_images s new).cursor = 0 ∧ (set_images s new).selected = ∅ ∧
    (set_images s new).images = new :=
  ⟨rfl, rfl, rfl⟩

/-- C7: for a nonempty selection, `action_delete_selected` attempts
deletions exactly at the in-range selected indices, in strictly descending
order; afterwards (through the triggered refresh) the selection is empty
and the cursor is 0, and the status reports the count of successful
deletions. -/
theorem claim_C7_delete_selected (st : AppState) (delOk : List Char → Bool)
    (newListing : List (List Char)) (hsel : st.imageList.selected ≠ ∅) :
    (deletionAttempts st.imageList.selected st.imageList.images).Sorted (· > ·) ∧
    (∀ i, i ∈ deletionAttempts st.imageList.selected st.imageList.images ↔
      i ∈ st.imageList.selected ∧ i < st.imageList.images.length) ∧
    (action_delete_selected st delOk newListing).imageList.selected = ∅ ∧
    (action_delete_selected st delOk newListing).imageList.cursor = 0 ∧
    (action_delete_selected st delOk newListing).status =
      statusDeleted (deleteCount st.imageList.selected st.imageList.images delOk) := by
  refine ⟨deletionAttempts_sorted _ _, fun i => mem_deletionAttempts _ _ i, ?_, ?_, ?_⟩ <;>
    simp [action_delete_selected, if_neg hsel, setStatus, set_images]

/-- Concrete session state for the C7 witness: 5 items, selection `{1, 3}`,
cursor at 2. -/
def sampleDeleteState : AppState :=
  ⟨⟨[['a'], ['b'], ['c'], ['d'], ['e']], {1, 3}, 2⟩, [], false, []⟩

/-- C7 witness: selection `{1, 3}` over 5 items; the deletion attempts are
at positions 3 then 1. -/
theorem claim_C7_delete_selected_witness :
    sampleDeleteState.imageList.selected ≠ ∅ ∧
    deletionAttempts sampleDeleteState.imageList.selected
      sampleDeleteState.imageList.images = [3, 1] ∧
    ((deletionAttempts sampleDeleteState.imageList.selected
        sampleDeleteState.imageList.images).Sorted (· > ·) ∧
      (∀ i, i ∈ deletionAttempts sampleDeleteState.imageList.selected
          sampleDeleteState.imageList.images ↔
        i ∈ sampleDeleteState.imageList.selected ∧
        i < sampleDeleteState.imageList.images.length) ∧
      (action_delete_selected sampleDeleteState (fun _ => true) []).imageList.selected
        = ∅ ∧
      (action_delete_selected sampleDeleteState (fun _ => true) []).imageList.cursor
        = 0 ∧
      (action_delete_selected sampleDeleteState (fun _ => true) []).status =
        statusDeleted (deleteCount sampleDeleteState.imageList.selected
          sampleDeleteState.imageList.images (fun _ => true))) := by
  have hsort : Finset.sort (· ≤ ·) ({1, 3} : Finset ℕ) = [1, 3] := by
    rw [show ({1, 3} : Finset ℕ) = insert 1 {3} from rfl]
    rw [Finset.sort_insert]
    · rw [Finset.sort_singleton]
    · decide
    · decide
  refine ⟨by decide, ?_,
    claim_C7_delete_selected sampleDeleteState (fun _ => true) [] (by decide)⟩
  show deletionAttempts ({1, 3} : Finset ℕ) [['a'], ['b'], ['c'], ['d'], ['e']] = [3, 1]
  unfold deletionAttempts sortedDescending
  rw [hsort]
  decide

/-- C10: when the prompt input strips to the empty string, `action_generate`
does not reach the backend call, sets the "Enter a prompt first" status, and
leaves the image list (items, cursor, selection) unchanged — for any
would-be backend outcome. -/
theorem claim_C10_empty_prompt_no_call (st : AppState)
    (genResult : Except (List Char) (List (List Char)))
    (newListing : List (List Char))
    (h : (pyStrip st.promptInput).isEmpty) :
    (action_generate st genResult newListing).2 = false ∧
    (action_generate st genResult newListing).1.imageList = st.imageList ∧
    (action_generate st genResult newListing).1.status = statusEnterPrompt := by
  refine ⟨?_, ?_, ?_⟩ <;> simp [action_generate, h, setStatus]

/-- C10 witness: a whitespace-only prompt input with a one-item list and a
live selection; the action is a status-only no-op. -/
theorem claim_C10_empty_prompt_no_call_witness :
    (pyStrip (⟨⟨[['a']], {0}, 0⟩, [], false, [' ', ' ']⟩ :
        AppState).promptInput).isEmpty ∧
    ((action_generate (⟨⟨[['a']], {0}, 0⟩, [], false, [' ', ' ']⟩ : AppState)
        (.ok [['z']]) [['z']]).2 = false ∧
      (action_generate (⟨⟨[['a']], {0}, 0⟩, [], false, [' ', ' ']⟩ : AppState)
        (.ok [['z']]) [['z']]).1.imageList =
        (⟨⟨[['a']], {0}, 0⟩, [], false, [' ', ' ']⟩ : AppState).imageList ∧
      (action_generate (⟨⟨[['a']], {0}, 0⟩, [], false, [' ', ' ']⟩ : AppState)
        (.ok [['z']]) [['z']]).1.status = statusEnterPrompt) :=
  ⟨by decide,
   claim_C10_empty_prompt_no_call
     (⟨⟨[['a']], {0}, 0⟩, [], false, [' ', ' ']⟩ : AppState)
     (.ok [['z']]) [['z']] (by decide)⟩

/-- C4: if the enhancement service call raises (`none`) or yields a payload
that strips to the empty string, `enhance_prompt` returns the original
prompt unchanged, `_maybe_enhance_prompt` reports `was_enhanced = false`,
and `generate_image` still proceeds: whenever the backend succeeds on the
original prompt, the orchestrator returns its paths together with metadata
recording `enhanced: false` — the enhancement failure neither aborts nor
propagates out of the generate call. -/
theorem claim_C4_enhancement_failure_fallback
    (use_ollama avail use_local enhanceFlag : Bool)
    (prompt : List Char) (response : Option (List Char))
    (backend : List Char → Except (List Char) (List (List Char)))
    (hfail : response = none ∨ ∃ c, response = some c ∧ (pyStrip c).isEmpty) :
    enhance_prompt prompt response = prompt ∧
    maybe_enhance_prompt use_ollama avail prompt response = (prompt, false) ∧
    ∀ paths, backend prompt = .ok paths →
      ∃ md : GenMetadata,
        generate_image use_ollama avail use_local prompt enhanceFlag response backend =
          .ok (paths, md) ∧ md.enhanced = false ∧ md.original_prompt = prompt := by
  have h1 : enhance_prompt prompt response = prompt :=
    enhance_prompt_fallback prompt response hfail
  have h2 : maybe_enhance_prompt use_ollama avail prompt response = (prompt, false) := by
    unfold maybe_enhance_prompt
    cases use_ollama <;> cases avail <;> simp [h1]
  refine ⟨h1, h2, fun paths hok => ?_⟩
  have hfp : finalPrompt use_ollama avail prompt enhanceFlag response = prompt := by
    unfold finalPrompt
    split
    · rw [h2]
    · rfl
  rw [generate_image_eq_match, hfp, hok]
  refine ⟨_, rfl, ?_, ?_⟩
  · by_cases hflag : enhanceFlag && use_ollama <;> simp [hflag, h2]
  · by_cases hflag : enhanceFlag && use_ollama <;> simp [hflag, h2]

/-- C4 witness: enhancement enabled and available, but the service payload
is whitespace-only; the backend answers with one path for the original
prompt. -/
theorem claim_C4_enhancement_failure_fallback_witness :
    ((some [' '] : Option (List Char)) = none ∨
      ∃ c, (some [' '] : Option (List Char)) = some c ∧ (pyStrip c).isEmpty) ∧
    (enhance_prompt ['p'] (some [' ']) = ['p'] ∧
      maybe_enhance_prompt true true ['p'] (some [' ']) = (['p'], false) ∧
      ∀ paths, (fun _ : List Char => (.ok [['z']] :
          Except (List Char) (List (List Char)))) ['p'] = .ok paths →
        ∃ md : GenMetadata,
          generate_image true true false ['p'] true (some [' '])
            (fun _ : List Char => (.ok [['z']] :
              Except (List Char) (List (List Char)))) =
            .ok (paths, md) ∧ md.enhanced = false ∧ md.original_prompt = ['p']) :=
  ⟨Or.inr ⟨[' '], rfl, by decide⟩,
   claim_C4_enhancement_failure_fallback true true false true ['p'] (some [' '])
     (fun _ => .ok [['z']]) (Or.inr ⟨[' '], rfl, by decide⟩)⟩

/-- C8: a backend failure is propagated out of the orchestrator's
`generate_image` as the same error (no partial item list is returned), and
the session's `action_generate` handler turns it into an `Error:` status of
at most 57 characters (7-character prefix plus the exception text clipped
to 50) while leaving the image list — items, cursor and selection —
exactly as it was. -/
theorem claim_C8_backend_failure_propagates
    (use_ollama avail use_local enhanceFlag : Bool)
    (prompt : List Char) (response : Option (List Char))
    (backend : List Char → Except (List Char) (List (List Char)))
    (e : List Char) (st : AppState) (newListing : List (List Char))
    (hbackend : backend (finalPrompt use_ollama avail prompt enhanceFlag response) =
      .error e)
    (hprompt : ¬(pyStrip st.promptInput).isEmpty) :
    generate_image use_ollama avail use_local prompt enhanceFlag response backend =
      .error e ∧
    (action_generate st (.error e) newListing).1.imageList = st.imageList ∧
    (action_generate st (.error e) newListing).1.status = statusError e ∧
    (statusError e).length ≤ 57 := by
  refine ⟨?_, ?_, ?_, ?_⟩
  · rw [generate_image_eq_match, hbackend]
  · simp [action_generate, hprompt, setStatus]
  · simp [action_generate, hprompt, setStatus]
  · have h7 : ("Error: ".toList).length = 7 := by decide
    simp only [statusError, List.length_append, List.length_take, h7]
    omega

/-- C8 witness: a backend that always fails with `boom`, a session whose
prompt input is `x` and whose list holds one item with a selection. -/
theorem claim_C8_backend_failure_propagates_witness :
    ((fun _ : List Char => (.error "boom".toList :
        Except (List Char) (List (List Char))))
      (finalPrompt false false ['p'] true none) = .error "boom".toList) ∧
    ¬(pyStrip (⟨⟨[['a']], {0}, 0⟩, [], false, ['x']⟩ :
        AppState).promptInput).isEmpty ∧
    (generate_image false false false ['p'] true none
        (fun _ : List Char => (.error "boom".toList :
          Except (List Char) (List (List Char)))) = .error "boom".toList ∧
      (action_generate (⟨⟨[['a']], {0}, 0⟩, [], false, ['x']⟩ : AppState)
        (.error "boom".toList) []).1.imageList =
        (⟨⟨[['a']], {0}, 0⟩, [], false, ['x']⟩ : AppState).imageList ∧
      (action_generate (⟨⟨[['a']], {0}, 0⟩, [], false, ['x']⟩ : AppState)
        (.error "boom".toList) []).1.status = statusError "boom".toList ∧
      (statusError "boom".toList).length ≤ 57) :=
  ⟨rfl, by decide,
   claim_C8_backend_failure_propagates false false false true ['p'] none
     (fun _ => .error "boom".toList) "boom".toList
     (⟨⟨[['a']], {0}, 0⟩, [], false, ['x']⟩ : AppState) [] rfl (by decide)⟩

/-- A 300-character enhanced response embedding a comma at index 160 and a
space at index 240, used to refute and then amend C2. -/
def responseCommaAt160 : List Char :=
  List.replicate 160 'a' ++ [','] ++ List.replicate 79 'a' ++ [' '] ++
    List.replicate 59 'a'

/-- C2 counterexample: the claim says that whenever a comma occurs at an
index in `[150, 250)` of a 300-character response, the result ends exactly
before that comma.  Here a comma occurs at index 160, yet the code cuts at
the *last* break before the budget (the space at index 240): the result has
240 characters and differs from the comma-at-160 prefix. -/
theorem claim_C2_counterexample :
    responseCommaAt160.length = 300 ∧
    responseCommaAt160[160]? = some ',' ∧ 150 ≤ 160 ∧ 160 < 250 ∧
    (enhance_prompt [] (some responseCommaAt160)).length = 240 ∧
    enhance_prompt [] (some responseCommaAt160) ≠
      pyStrip (rstripComma (responseCommaAt160.take 160)) := by
  decide

/-- C2 (amended): for a 300-character response without surrounding
whitespace, the result has at most 250 characters and, whenever a comma
occurs at an index in `(150, 250)`, the result ends exactly before the
**last** comma-or-space break of the first 250 characters (itself after
index 150), with trailing commas and whitespace stripped. -/
theorem claim_C2_truncation_300 (prompt content : List Char)
    (hlen : content.length = 300) (hstrip : pyStrip content = content) :
    (enhance_prompt prompt (some content)).length ≤ 250 ∧
    ∀ i, 150 < i → i < 250 → content[i]? = some ',' →
      ∃ b : ℕ, 150 < b ∧ b < 250 ∧
        (content[b]? = some ',' ∨ content[b]? = some ' ') ∧
        (∀ j, b < j → j < 250 → content[j]? ≠ some ',' ∧ content[j]? ≠ some ' ') ∧
        enhance_prompt prompt (some content) =
          pyStrip (rstripComma (content.take b)) := by
  have hne : ¬(pyStrip content).isEmpty := by
    rw [hstrip, List.isEmpty_iff]
    intro hnil
    rw [hnil] at hlen
    simp at hlen
  have hlong : (pyStrip content).length > MAX_PROMPT_CHARS := by
    rw [hstrip, hlen]
    decide
  refine ⟨enhance_prompt_length_le prompt content hne, ?_⟩
  intro i hi hi250 hcomma
  have hitr : ((pyStrip content).take MAX_PROMPT_CHARS)[i]? = some ',' := by
    rw [hstrip]
    have hlt : i < MAX_PROMPT_CHARS := hi250
    simp [List.getElem?_take, hlt, hcomma]
  obtain ⟨b, hb1, hb2, hb3, hb4, hb5⟩ :=
    enhance_prompt_cut_at_break prompt content hne hlong i hi (Or.inl hitr)
  have hblt : b < 250 := hb2
  have hconv : ∀ (j : ℕ) (c : Char), j < 250 →
      (((pyStrip content).take MAX_PROMPT_CHARS)[j]? = some c ↔
        content[j]? = some c) := by
    intro j c hj
    rw [hstrip]
    have hlt : j < MAX_PROMPT_CHARS := hj
    simp [List.getElem?_take, hlt]
  refine ⟨b, hb1, hblt, ?_, ?_, ?_⟩
  · rcases hb3 with h | h
    · exact Or.inl ((hconv b ',' hblt).1 h)
    · exact Or.inr ((hconv b ' ' hblt).1 h)
  · intro j hbj hj250
    have hj := hb4 j hbj
    exact ⟨fun hc => hj.1 ((hconv j ',' hj250).2 hc),
           fun hs => hj.2 ((hconv j ' ' hj250).2 hs)⟩
  · rw [hb5, hstrip, List.take_take, min_eq_left (le_of_lt hb2)]

/-- C2 witness: the amended truncation behavior evaluated on the concrete
300-character response with breaks at 160 and 240. -/
theorem claim_C2_truncation_300_witness :
    responseCommaAt160.length = 300 ∧
    pyStrip responseCommaAt160 = responseCommaAt160 ∧
    ((enhance_prompt [] (some responseCommaAt160)).length ≤ 250 ∧
      ∀ i, 150 < i → i < 250 → responseCommaAt160[i]? = some ',' →
        ∃ b : ℕ, 150 < b ∧ b < 250 ∧
          (responseCommaAt160[b]? = some ',' ∨ responseCommaAt160[b]? = some ' ') ∧
          (∀ j, b < j → j < 250 → responseCommaAt160[j]? ≠ some ',' ∧
            responseCommaAt160[j]? ≠ some ' ') ∧
          enhance_prompt [] (some responseCommaAt160) =
            pyStrip (rstripComma (responseCommaAt160.take b))) :=
  ⟨by decide, by decide,
   claim_C2_truncation_300 [] responseCommaAt160 (by decide) (by decide)⟩

/-- C3 counterexample: the claim's length bound is quantified over *every*
prompt and *every* service response, but when the service yields an empty
payload the code falls back to the original prompt unchanged — so a
251-character prompt makes the returned string exceed the 250-character
budget. -/
theorem claim_C3_counterexample :
    enhance_prompt (List.replicate 251 'a') (some []) = List.replicate 251 'a' ∧
    MAX_PROMPT_CHARS < (enhance_prompt (List.replicate 251 'a') (some [])).length := by
  decide

/-- C3 (amended): for every prompt and every service response whose payload
strips to a nonempty string, the returned string never exceeds the
250-character budget; and when the stripped response exceeds the budget and
a comma or space occurs after index 150 among its first 250 characters, the
result is cut at such a break point (the last one) rather than mid-token. -/
theorem claim_C3_budget_and_break (prompt content : List Char)
    (hne : ¬(pyStrip content).isEmpty) :
    (enhance_prompt prompt (some content)).length ≤ MAX_PROMPT_CHARS ∧
    ((pyStrip content).length > MAX_PROMPT_CHARS →
      ∀ i, 150 < i →
        (((pyStrip content).take MAX_PROMPT_CHARS)[i]? = some ',' ∨
         ((pyStrip content).take MAX_PROMPT_CHARS)[i]? = some ' ') →
        ∃ b : ℕ, 150 < b ∧ b < MAX_PROMPT_CHARS ∧
          (((pyStrip content).take MAX_PROMPT_CHARS)[b]? = some ',' ∨
           ((pyStrip content).take MAX_PROMPT_CHARS)[b]? = some ' ') ∧
          enhance_prompt prompt (some content) =
            pyStrip (rstripComma (((pyStrip content).take MAX_PROMPT_CHARS).take b))) := by
  refine ⟨enhance_prompt_length_le prompt content hne, fun hlong i hi hbrk => ?_⟩
  obtain ⟨b, hb1, hb2, hb3, _, hb5⟩ :=
    enhance_prompt_cut_at_break prompt content hne hlong i hi hbrk
  exact ⟨b, hb1, hb2, hb3, hb5⟩

/-- A 300-character response whose only break is a comma at index 200, used
to witness the amended C3. -/
def responseCommaAt200 : List Char :=
  List.replicate 200 'a' ++ [','] ++ List.replicate 99 'b'

/-- C3 witness: the amended budget-and-break property evaluated on a
concrete over-budget response with a break at index 200. -/
theorem claim_C3_budget_and_break_witness :
    ¬(pyStrip responseCommaAt200).isEmpty ∧
    ((enhance_prompt ['p'] (some responseCommaAt200)).length ≤ MAX_PROMPT_CHARS ∧
      ((pyStrip responseCommaAt200).length > MAX_PROMPT_CHARS →
        ∀ i, 150 < i →
          (((pyStrip responseCommaAt200).take MAX_PROMPT_CHARS)[i]? = some ',' ∨
           ((pyStrip responseCommaAt200).take MAX_PROMPT_CHARS)[i]? = some ' ') →
          ∃ b : ℕ, 150 < b ∧ b < MAX_PROMPT_CHARS ∧
            (((pyStrip responseCommaAt200).take MAX_PROMPT_CHARS)[b]? = some ',' ∨
             ((pyStrip responseCommaAt200).take MAX_PROMPT_CHARS)[b]? = some ' ') ∧
            enhance_prompt ['p'] (some responseCommaAt200) =
              pyStrip (rstripComma
                (((pyStrip responseCommaAt200).take MAX_PROMPT_CHARS).take b)))) :=
  ⟨by decide, claim_C3_budget_and_break ['p'] responseCommaAt200 (by decide)⟩

end Hawk
